import Mathlib

/-
  Verification of the include directive of the liquid templating engine
  (src/src/tags/include_tag.rs).

  The module under verification defines three items:
  - struct Include { name, partial } with its Renderable::render_to impl,
  - fn parse_partial(name, options) — lookup, tokenize, parse,
  - fn include_tag(tag_name, arguments, options) — the directive parser.

  External collaborators (liquid_error's Error and trace_with, the
  compiler crate's Token, tokenize, parse and unexpected_token_error, the
  Include Source trait and its implementations) are not part of the
  repository sources; they are embedded here at their interface,
  quantified over wherever possible, and modelled from the spec where a
  concrete behaviour is needed.  State (the output writer and the render
  context, mutated through references in Rust) is embedded by explicit
  state passing; fallible calls return Except.
-/

namespace LiquidRust

/-- Argument tokens handed to a tag parser.  The external compiler crate
has many token kinds; the module only inspects StringLiteral and
Identifier, so every other kind is collapsed into Other (carrying its
display text). -/
inductive Token where
  | StringLiteral (s : String)
  | Identifier (s : String)
  | Other (s : String)
deriving DecidableEq

/-- Modelled from the spec: the external liquid_error Error value — a
message plus an ordered list of trace annotations, appended at each
propagation boundary, so that the innermost annotation comes first. -/
structure Error where
  msg : String
  trace : List String
deriving DecidableEq

/-- The Result type of the module: success or a liquid Error. -/
abbrev Result (α : Type) := Except Error α

/-- Modelled from the spec: ResultLiquidExt::trace_with of the external
liquid_error crate — on failure, append one trace annotation; on
success, pass the value through unchanged. -/
def trace_with {α : Type} (r : Result α) (t : String) : Result α :=
  match r with
  | Except.error e => Except.error { e with trace := e.trace ++ [t] }
  | Except.ok a => Except.ok a

/-- Display text of a token, used in error messages. -/
def Token.display : Token → String
  | Token.StringLiteral s => "\x22" ++ s ++ "\x22"
  | Token.Identifier s => s
  | Token.Other s => s

/-- Modelled from the spec: unexpected_token_error of the external
compiler crate — a malformed-directive error stating the expected kind
and identifying the actual (or absent) token. -/
def unexpected_token_error (expected : String) (actual : Option Token) : Error :=
  { msg := "Expected " ++ expected ++ ", found " ++
      (match actual with
       | some t => Token.display t
       | none => "nothing")
  , trace := [] }

/-- The trace annotation the module attaches at every include boundary:
the Rust format string "\x7b% include {} %\x7d" instantiated at a name,
used both at compile time (include_tag) and at render time
(Include::render_to). -/
def include_ann (n : String) : String := "\x7b% include " ++ n ++ " %\x7d"

/-- A renderable node: consumes the output written so far and the render
context, returns the extended output and the (possibly mutated) context.
This is the state-passing embedding of
render_to(&self, writer: &mut Write, context: &mut Context). -/
def Renderable (Ctx : Type) : Type := String → Ctx → Result (String × Ctx)

/-- interpreter::Template — wraps the list of compiled nodes. -/
structure Template (Ctx : Type) where
  elements : List (Renderable Ctx)

/-- Template::new. -/
def Template.new {Ctx : Type} (elements : List (Renderable Ctx)) : Template Ctx :=
  { elements := elements }

/-- Modelled from the spec: the external interpreter Template renders its
nodes in order, threading the same writer and context through each. -/
def Template.render_to {Ctx : Type} (self : Template Ctx) (writer : String) (context : Ctx) :
    Result (String × Ctx) :=
  self.elements.foldlM (fun wc r => r wc.1 wc.2) (writer, context)

/-- struct Include { name: String, partial: Template } — the Include
Node.  The partial field is called partial_tpl here because its source
name is a Lean keyword. -/
structure Include (Ctx : Type) where
  name : String
  partial_tpl : Template Ctx

/-- impl Renderable for Include — delegate rendering to the owned partial
with the same writer and context; on failure, re-raise traced with the
include annotation; on success return what the partial returned. -/
def Include.render_to {Ctx : Type} (self : Include Ctx) (writer : String) (context : Ctx) :
    Result (String × Ctx) := do
  let out ← trace_with (Template.render_to self.partial_tpl writer context)
      (include_ann self.name)
  return out

/-- The compiler configuration (LiquidOptions) as this module touches it:
the Include Source lookup it queries, plus the external tokenize and
parse capabilities it invokes.  In the source, tokenize and parse are
crate-level functions and parse receives the options back (that knot is
tied concretely by the fuel-indexed model below); bundling them here lets
every theorem quantify over them. -/
structure LiquidOptions (Ctx : Type) where
  include_source : String → Result String
  tokenize : String → Result (List Token)
  parse : List Token → Result (List (Renderable Ctx))

/-- fn parse_partial(name, options): look the raw text up in the Include
Source, tokenize it, parse the tokens, wrap the nodes with Template::new.
Each ? on the Rust side is an Except bind here. -/
def parse_partial {Ctx : Type} (name : String) (options : LiquidOptions Ctx) :
    Result (Template Ctx) := do
  let content ← options.include_source name
  let tokens ← options.tokenize content
  return Template.new (← options.parse tokens)

/-- fn include_tag(tag_name, arguments, options): the first argument
token — a string literal or an identifier — supplies the partial name;
anything else, including no argument at all, is an unexpected-token
error expecting "string".  The partial is then resolved and compiled,
failures traced with the include annotation, and name plus compiled
partial are wrapped into an Include node.  (The source boxes the node as
Box of dyn Renderable; the node itself is returned here so theorems can
inspect it.) -/
def include_tag {Ctx : Type} (_tag_name : String) (arguments : List Token)
    (options : LiquidOptions Ctx) : Result (Include Ctx) := do
  let name ← match arguments.head? with
    | some (Token.StringLiteral name) => Except.ok name
    | some (Token.Identifier s) => Except.ok s
    | arg => Except.error (unexpected_token_error "string" arg)
  let tpl ← trace_with ( parse_partial name options) (include_ann name)
  return { name := name, partial_tpl := tpl }

/-- Standalone compilation of a raw text under a configuration: tokenize
then parse — exactly the pipeline parse_partial runs after lookup (the
spec's "compiling the partial's raw text standalone"). -/
def compile_text {Ctx : Type} (text : String) (options : LiquidOptions Ctx) :
    Result (Template Ctx) := do
  let tokens ← options.tokenize text
  return Template.new (← options.parse tokens)

/-- Modelled from the spec: an in-memory Include Source implementation
(the repository's concrete sources are external to src/); looking up a
missing name fails with the "Snippet does not exist" condition that the
module's own test asserts. -/
def map_include (partials : List (String × String)) : String → Result String :=
  fun name =>
    match partials.lookup name with
    | some text => Except.ok text
    | none => Except.error { msg := "Snippet does not exist", trace := [] }

/-
  Fuel-indexed model of the recursive resolution pipeline.

  parse_partial hands the looked-up text to the external parser, which
  dispatches nested include directives back to include_tag — mutual
  recursion through an external crate, with no depth or cycle guard.  To
  reason about that recursion (claims about nested traces and about
  termination) the external tokenizer and parser are modelled from the
  spec just far enough: a text is either a single include directive or
  raw text, and the pipeline is indexed by fuel, where running out of
  fuel (none) marks failure to terminate within that recursion budget.
-/

/-- Modelled from the spec: the tokenizer's output for one text — either
an include tag with its argument tokens, or raw text. -/
inductive Element where
  | raw (text : String)
  | tag (tagname : String) (args : List Token)
deriving DecidableEq

/-- Modelled from the spec: a minimal external tokenizer.  A text of the
exact shape of an include directive with a quoted name becomes a tag
element carrying the name as a string-literal argument token; anything
else is raw text.  (Char-list operations are used so terms reduce.) -/
def miniTokenize (s : String) : Element :=
  let cs := s.data
  if "\x7b% include \x27".data.isPrefixOf cs && "\x27 %\x7d".data.isSuffixOf cs then
    Element.tag "include" [Token.StringLiteral ⟨(cs.drop 12).take (cs.length - 16)⟩]
  else
    Element.raw s

/-- Compiled node of the fuel-indexed model: raw text, or an include node
owning the sub-tree compiled for its partial (depth-first, before the
parent's parse returns). -/
inductive MiniNode where
  | text (s : String)
  | includeNode (name : String) (sub : MiniNode)
deriving DecidableEq

/-- The include_tag wrapping step of the model: a failure is re-raised
with the include annotation appended to its trace; a success becomes an
include node owning the compiled sub-tree. -/
def wrap_include (n : String) : Result MiniNode → Result MiniNode
  | Except.error e => Except.error { e with trace := e.trace ++ [include_ann n] }
  | Except.ok sub => Except.ok (MiniNode.includeNode n sub)

/-- Modelled from the spec: the recursive Partial Resolver/Compiler —
lookup, tokenize, parse, where parsing a nested include directive
re-enters the resolver exactly as include_tag does (same name
extraction, same trace annotation), with no cycle or depth guard in the
code.  The Nat index is fuel: none means the pipeline did not return
within that recursion depth; some r means it returned result r. -/
def parse_partialF (src : String → Result String) : Nat → String → Option (Result MiniNode)
  | 0, _ => none
  | fuel + 1, name =>
    match src name with
    | Except.error e => some (Except.error e)
    | Except.ok content =>
      match miniTokenize content with
      | Element.raw s => some (Except.ok (MiniNode.text s))
      | Element.tag _ args =>
        match args.head? with
        | some (Token.StringLiteral n) | some (Token.Identifier n) =>
          (parse_partialF src fuel n).map (wrap_include n)
        | arg => some (Except.error (unexpected_token_error "string" arg))

/-- include_tag over the fuel-indexed model: extract the name from the
first argument token, resolve and compile the partial, trace failures
with the include annotation. -/
def include_tagF (src : String → Result String) (fuel : Nat) (arguments : List Token) :
    Option (Result MiniNode) :=
  match arguments.head? with
  | some (Token.StringLiteral n) | some (Token.Identifier n) =>
    (parse_partialF src fuel n).map (wrap_include n)
  | arg => some (Except.error (unexpected_token_error "string" arg))

/-- name a depends directly on name b: a's content resolves to an
include directive whose first argument token names b.  This is exactly
the situation in which parse_partialF recurses. -/
def dependsOn (src : String → Result String) (a b : String) : Prop :=
  ∃ content tn args, src a = Except.ok content ∧ miniTokenize content = Element.tag tn args ∧
    (args.head? = some (Token.StringLiteral b) ∨ args.head? = some (Token.Identifier b))

/-- An Include Source under which every partial includes itself. -/
def self_source : String → Result String :=
  fun name => Except.ok ("\x7b% include \x27" ++ name ++ "\x27 %\x7d")

/-- A two-level include chain whose innermost partial is missing:
outer includes inner, inner includes missing, missing is not in the
source. -/
def src3 : String → Result String :=
  map_include [("outer", "\x7b% include \x27inner\x27 %\x7d"),
               ("inner", "\x7b% include \x27missing\x27 %\x7d")]

/-- An acyclic source: a includes b, b is raw text. -/
def src0 : String → Result String :=
  map_include [("a", "\x7b% include \x27b\x27 %\x7d"), ("b", "hi")]

/-- A measure witnessing that src0's include graph is acyclic. -/
def m0 : String → Nat := fun n => if n = "a" then 1 else 0

/-
  Stateful model of the Include Source for the no-caching claim.

  The Rust Include trait takes &self but its implementations read an
  external world (e.g. the filesystem) that can change between calls, so
  whether each include site performs its own lookup is observable.  The
  functions below are the same parse_partial/include_tag control flow
  with the lookup threaded through an explicit source state.
-/

/-- parse_partial against a stateful Include Source: the lookup consumes
and returns the source state; tokenize and parse are the same pure
external capabilities as above. -/
def parse_partialS {Ctx σ : Type} (name : String)
    (include_source : σ → String → Result String × σ)
    (tokenize : String → Result (List Token))
    (parse : List Token → Result (List (Renderable Ctx)))
    (s : σ) : Result (Template Ctx) × σ :=
  match include_source s name with
  | (Except.error e, s') => (Except.error e, s')
  | (Except.ok content, s') =>
    match tokenize content with
    | Except.error e => (Except.error e, s')
    | Except.ok tokens =>
      match parse tokens with
      | Except.error e => (Except.error e, s')
      | Except.ok nodes => (Except.ok (Template.new nodes), s')

/-- include_tag against a stateful Include Source — same name extraction,
same trace annotation, same node construction as include_tag. -/
def include_tagS {Ctx σ : Type} (_tag_name : String) (arguments : List Token)
    (include_source : σ → String → Result String × σ)
    (tokenize : String → Result (List Token))
    (parse : List Token → Result (List (Renderable Ctx)))
    (s : σ) : Result (Include Ctx) × σ :=
  match arguments.head? with
  | some (Token.StringLiteral name) | some (Token.Identifier name) =>
    (match parse_partialS name include_source tokenize parse s with
     | (Except.error e, s') => (Except.error { e with trace := e.trace ++ [include_ann name] }, s')
     | (Except.ok tpl, s') => (Except.ok { name := name, partial_tpl := tpl }, s'))
  | arg => (Except.error (unexpected_token_error "string" arg), s)

/-- Modelled from the spec: the enclosing generic parser invokes the
registered directive parser once per include occurrence, left to right,
threading the source state through the occurrences. -/
def compile_directivesS {Ctx σ : Type} (dirs : List (List Token))
    (include_source : σ → String → Result String × σ)
    (tokenize : String → Result (List Token))
    (parse : List Token → Result (List (Renderable Ctx)))
    (s : σ) : Result (List (Include Ctx)) × σ :=
  match dirs with
  | [] => (Except.ok [], s)
  | args :: rest =>
    match include_tagS "include" args include_source tokenize parse s with
    | (Except.error e, s') => (Except.error e, s')
    | (Except.ok inc, s') =>
      match compile_directivesS rest include_source tokenize parse s' with
      | (Except.error e, s'') => (Except.error e, s'')
      | (Except.ok incs, s'') => (Except.ok (inc :: incs), s'')

/-
  Concrete configuration pieces used by the witness theorems.
-/

/-- A trivial external tokenizer for witnesses: one Other token holding
the text. -/
def tokenize_ex : String → Result (List Token) :=
  fun s => Except.ok [Token.Other s]

/-- A trivial external parser for witnesses: an empty node list. -/
def parse_ex : List Token → Result (List (Renderable Unit)) :=
  fun _ => Except.ok []

/-- A concrete configuration: one partial "p" with content "hello". -/
def opts_ex : LiquidOptions Unit :=
  { include_source := map_include [("p", "hello")]
  , tokenize := tokenize_ex
  , parse := parse_ex }

/-- A concrete Include node whose partial writes "5" to the sink. -/
def inc_ok : Include Unit :=
  { name := "p", partial_tpl := Template.new [fun w c => Except.ok (w ++ "5", c)] }

/-- A concrete Include node whose partial fails to render. -/
def inc_err : Include Unit :=
  { name := "inner", partial_tpl := Template.new [fun _ _ => Except.error (Error.mk "boom" [])] }

/-- Include Source content as a function of the lookup call index: the
content changes between the first and the second call. -/
def f8 : Nat → String → String := fun i _ => if i = 0 then "A" else "B"

/-
  Helper lemmas.
-/

/-- Fuel monotonicity: once the fuel-indexed pipeline returns a result,
more fuel returns the same result. -/
theorem parse_partialF_mono (src : String → Result String) :
    ∀ fuel fuel' name r, fuel ≤ fuel' → parse_partialF src fuel name = some r →
      parse_partialF src fuel' name = some r := by
  intro fuel
  induction fuel with
  | zero =>
    intro fuel' name r _ h
    exact absurd h (by simp [parse_partialF])
  | succ fuel ih =>
    intro fuel' name r hle h
    obtain ⟨fuel'', rfl⟩ : ∃ k, fuel' = k + 1 := by
      cases fuel' with
      | zero => omega
      | succ k => exact ⟨k, rfl⟩
    simp only [parse_partialF] at h ⊢
    cases hsrc : src name with
    | error e => simp only [hsrc] at h ⊢; exact h
    | ok content =>
      simp only [hsrc] at h ⊢
      cases htok : miniTokenize content with
      | raw s => simp only [htok] at h ⊢; exact h
      | tag tn args =>
        simp only [htok] at h ⊢
        cases hhd : args.head? with
        | none => simp only [hhd] at h ⊢; exact h
        | some t =>
          cases t with
          | StringLiteral n =>
            simp only [hhd] at h ⊢
            cases hpp : parse_partialF src fuel n with
            | none => rw [hpp] at h; simp at h
            | some r' =>
              rw [hpp] at h
              rw [ih fuel'' n r' (by omega) hpp]
              exact h
          | Identifier n =>
            simp only [hhd] at h ⊢
            cases hpp : parse_partialF src fuel n with
            | none => rw [hpp] at h; simp at h
            | some r' =>
              rw [hpp] at h
              rw [ih fuel'' n r' (by omega) hpp]
              exact h
          | Other s => simp only [hhd] at h ⊢; exact h

/-- If the direct include-dependency relation of a source admits a
decreasing measure (so its include graph is acyclic), the pipeline
terminates on every name: fuel one more than the measure returns a
result. -/
theorem parse_partialF_acyclic_total (src : String → Result String) (m : String → Nat)
    (hm : ∀ a b, dependsOn src a b → m b < m a) :
    ∀ k name, m name < k → parse_partialF src (m name + 1) name ≠ none := by
  intro k
  induction k with
  | zero => intro name h; exact absurd h (Nat.not_lt_zero _)
  | succ k ih =>
    intro name hk
    simp only [parse_partialF]
    cases hsrc : src name with
    | error e => simp only [hsrc]; simp
    | ok content =>
      simp only [hsrc]
      cases htok : miniTokenize content with
      | raw s => simp only [htok]; simp
      | tag tn args =>
        simp only [htok]
        cases hhd : args.head? with
        | none => simp only [hhd]; simp
        | some t =>
          cases t with
          | StringLiteral n =>
            simp only [hhd]
            have hlt := hm _ _ ⟨content, tn, args, hsrc, htok, Or.inl hhd⟩
            cases hpp : parse_partialF src (m n + 1) n with
            | none => exact absurd hpp (ih n (by omega))
            | some r =>
              have hmono := parse_partialF_mono src (m n + 1) (m name) n r (by omega) hpp
              simp [hmono]
          | Identifier n =>
            simp only [hhd]
            have hlt := hm _ _ ⟨content, tn, args, hsrc, htok, Or.inr hhd⟩
            cases hpp : parse_partialF src (m n + 1) n with
            | none => exact absurd hpp (ih n (by omega))
            | some r =>
              have hmono := parse_partialF_mono src (m n + 1) (m name) n r (by omega) hpp
              simp [hmono]
          | Other s => simp only [hhd]; simp

/-- Under the self-including source, no amount of fuel makes the
pipeline return for "a": it neither succeeds nor produces any error. -/
theorem self_source_loops : ∀ fuel, parse_partialF self_source fuel "a" = none := by
  intro fuel
  induction fuel with
  | zero => rfl
  | succ fuel ih =>
    have step : parse_partialF self_source (fuel + 1) "a"
        = (parse_partialF self_source fuel "a").map (wrap_include "a") := rfl
    rw [step, ih]
    rfl

/-- m0 is a decreasing measure for src0's include dependencies: src0's
include graph is acyclic. -/
theorem src0_measure : ∀ a b, dependsOn src0 a b → m0 b < m0 a := by
  rintro a b ⟨content, tn, args, hsrc, htok, hhd⟩
  by_cases ha : a = "a"
  · subst ha
    rw [show src0 "a" = Except.ok "\x7b% include \x27b\x27 %\x7d" from rfl] at hsrc
    injection hsrc with hc
    subst hc
    rw [show miniTokenize "\x7b% include \x27b\x27 %\x7d"
        = Element.tag "include" [Token.StringLiteral "b"] from rfl] at htok
    injection htok with h1 h2
    subst h2
    rcases hhd with h | h
    · simp at h
      subst h
      decide
    · simp at h
  · by_cases hb : a = "b"
    · subst hb
      rw [show src0 "b" = Except.ok "hi" from rfl] at hsrc
      injection hsrc with hc
      subst hc
      rw [show miniTokenize "hi" = Element.raw "hi" from rfl] at htok
      simp at htok
    · have e1 : (a == "a") = false := beq_eq_false_iff_ne.mpr ha
      have e2 : (a == "b") = false := beq_eq_false_iff_ne.mpr hb
      simp [src0, map_include, List.lookup, e1, e2] at hsrc

/-- One propagation step of the render-time trace chain: when the owned
partial fails to render, the Include node re-raises the failure with its
own include annotation appended. -/
theorem render_to_error_step {Ctx : Type} (i : Include Ctx) (w : String) (c : Ctx)
    (e : Error) (h : Template.render_to i.partial_tpl w c = Except.error e) :
    Include.render_to i w c
      = Except.error { e with trace := e.trace ++ [include_ann i.name] } := by
  simp [Include.render_to, h, trace_with, include_ann, Bind.bind, Except.bind]

/-
  The claims.
-/

/-- Claim C1: for a partial name the Include Source resolves to some raw
text, compiling the directive with that name as its argument succeeds
exactly when compiling the raw text standalone (tokenize then parse,
same configuration) succeeds, and on success the Include node owns
precisely the template that standalone compilation produces, paired with
the literal name. -/
theorem include_compile_iff_standalone {Ctx : Type} (options : LiquidOptions Ctx)
    (name text : String) (h : options.include_source name = Except.ok text) :
    ((∃ inc, include_tag "include" [Token.StringLiteral name] options = Except.ok inc)
      ↔ (∃ tpl, compile_text text options = Except.ok tpl))
    ∧ (∀ tpl, compile_text text options = Except.ok tpl →
        include_tag "include" [Token.StringLiteral name] options
          = Except.ok { name := name, partial_tpl := tpl }) := by
  have hpp : parse_partial name options = compile_text text options := by
    simp [ parse_partial, compile_text, h, Bind.bind, Except.bind]
  cases hct : compile_text text options with
  | error e =>
    have hit : include_tag "include" [Token.StringLiteral name] options
        = Except.error { e with trace := e.trace ++ [include_ann name] } := by
      simp [include_tag, hpp, hct, trace_with, include_ann, Bind.bind, Except.bind]
    refine ⟨⟨?_, ?_⟩, ?_⟩
    · rintro ⟨inc, hinc⟩
      rw [hit] at hinc
      cases hinc
    · rintro ⟨tpl, htpl⟩
      simp at htpl
    · intro tpl htpl
      simp at htpl
  | ok tpl =>
    have hit : include_tag "include" [Token.StringLiteral name] options
        = Except.ok { name := name, partial_tpl := tpl } := by
      simp [include_tag, hpp, hct, trace_with, Bind.bind, Except.bind, pure, Except.pure]
    refine ⟨⟨fun _ => ⟨tpl, rfl⟩, fun _ => ⟨_, hit⟩⟩, ?_⟩
    intro tpl' htpl'
    injection htpl' with hh
    rw [← hh]
    exact hit

theorem include_compile_iff_standalone_witness :
    ((∃ inc, include_tag "include" [Token.StringLiteral "p"] opts_ex = Except.ok inc)
      ↔ (∃ tpl, compile_text "hello" opts_ex = Except.ok tpl))
    ∧ (∀ tpl, compile_text "hello" opts_ex = Except.ok tpl →
        include_tag "include" [Token.StringLiteral "p"] opts_ex
          = Except.ok { name := "p", partial_tpl := tpl }) :=
  include_compile_iff_standalone opts_ex "p" "hello" rfl

/-- Claim C2: whenever the first argument token is neither a quoted
string literal nor a bare identifier — including when there is no
argument at all — include_tag returns the malformed-directive error
built by unexpected_token_error from the expected kind "string" and the
offending (or absent) first token.  The function is total, so no input
panics. -/
theorem include_tag_rejects_bad_first_token {Ctx : Type} (options : LiquidOptions Ctx)
    (arguments : List Token)
    (h1 : ∀ s, arguments.head? ≠ some (Token.StringLiteral s))
    (h2 : ∀ s, arguments.head? ≠ some (Token.Identifier s)) :
    include_tag "include" arguments options
      = Except.error (unexpected_token_error "string" arguments.head?) := by
  cases hh : arguments.head? with
  | none => simp [include_tag, hh, Bind.bind, Except.bind]
  | some t =>
    cases t with
    | StringLiteral s => exact absurd hh (h1 s)
    | Identifier s => exact absurd hh (h2 s)
    | Other s => simp [include_tag, hh, Bind.bind, Except.bind]

theorem include_tag_rejects_bad_first_token_witness :
    include_tag "include" ([] : List Token) opts_ex
      = Except.error (unexpected_token_error "string" none) :=
  include_tag_rejects_bad_first_token opts_ex []
    (fun s => by simp) (fun s => by simp)

/-- Claim C3: every failure of partial resolution or compilation is
re-raised by include_tag with the include annotation for its name
appended to the trace (first conjunct); and in the recursive model, a
failure two levels of include below the directive surfaces with all
enclosing include annotations accumulated innermost first: missing, then
inner, then outer (second conjunct). -/
theorem include_tag_trace_accumulation {Ctx : Type} (options : LiquidOptions Ctx)
    (name : String) (e : Error) (h : parse_partial name options = Except.error e) :
    include_tag "include" [Token.StringLiteral name] options
      = Except.error { e with trace := e.trace ++ [include_ann name] }
    ∧ include_tagF src3 3 [Token.StringLiteral "outer"]
      = some (Except.error (Error.mk "Snippet does not exist"
          [include_ann "missing", include_ann "inner", include_ann "outer"])) := by
  constructor
  · simp [include_tag, h, trace_with, include_ann, Bind.bind, Except.bind]
  · rfl

theorem include_tag_trace_accumulation_witness :
    include_tag "include" [Token.StringLiteral "q"] opts_ex
      = Except.error (Error.mk "Snippet does not exist" [include_ann "q"])
    ∧ include_tagF src3 3 [Token.StringLiteral "outer"]
      = some (Except.error (Error.mk "Snippet does not exist"
          [include_ann "missing", include_ann "inner", include_ann "outer"])) :=
  include_tag_trace_accumulation opts_ex "q" (Error.mk "Snippet does not exist" []) rfl

/-- Claim C4: for a name the Include Source does not know, compiling the
directive fails with the not-found error — its message says the snippet
does not exist, distinguishing it from tokenize and parse failures — and
the error arises at the lookup step: the result is the same for every
tokenize and parse capability, which are never consulted. -/
theorem include_tag_not_found {Ctx : Type} (partials : List (String × String)) (name : String)
    (tokenize : String → Result (List Token))
    (parse : List Token → Result (List (Renderable Ctx)))
    (h : partials.lookup name = none) :
    include_tag "include" [Token.StringLiteral name]
        { include_source := map_include partials, tokenize := tokenize, parse := parse }
      = Except.error { msg := "Snippet does not exist", trace := [include_ann name] } := by
  have hsrc : map_include partials name
      = Except.error { msg := "Snippet does not exist", trace := [] } := by
    simp [map_include, h]
  simp [include_tag, parse_partial, hsrc, trace_with, include_ann, Bind.bind, Except.bind]

theorem include_tag_not_found_witness :
    include_tag "include" [Token.StringLiteral "nofile"]
        { include_source := map_include [], tokenize := tokenize_ex, parse := parse_ex }
      = Except.error { msg := "Snippet does not exist", trace := [include_ann "nofile"] } :=
  include_tag_not_found [] "nofile" tokenize_ex parse_ex rfl

/-- Claim C5: Include::render_to delegates entirely to the owned
compiled sub-tree, handing it the very writer and the very context it
was given; whenever the sub-tree renders successfully, render_to returns
exactly that outcome — the same written output and the same mutated
context, with no further effect. -/
theorem include_render_delegates {Ctx : Type} (inc : Include Ctx) (writer : String)
    (context : Ctx) (out : String × Ctx)
    (h : Template.render_to inc.partial_tpl writer context = Except.ok out) :
    Include.render_to inc writer context = Except.ok out := by
  simp [Include.render_to, h, trace_with, Bind.bind, Except.bind, pure, Except.pure]

theorem include_render_delegates_witness :
    Include.render_to inc_ok "" () = Except.ok ("5", ()) :=
  include_render_delegates inc_ok "" () ("5", ()) rfl

/-- Claim C6: a rendering failure of the owned partial is re-raised by
Include::render_to with this node's include annotation appended — never
swallowed — and when the failing include is itself rendered inside
another include's partial, the outer node appends its own annotation
after the inner one, accumulating the render-time chain innermost
first. -/
theorem include_render_error_trace {Ctx : Type} (inc : Include Ctx) (writer : String)
    (context : Ctx) (e : Error) (outer_name : String)
    (h : Template.render_to inc.partial_tpl writer context = Except.error e) :
    Include.render_to inc writer context
      = Except.error { e with trace := e.trace ++ [include_ann inc.name] }
    ∧ Include.render_to
        { name := outer_name,
          partial_tpl := Template.new [fun w c => Include.render_to inc w c] }
        writer context
      = Except.error { e with
          trace := (e.trace ++ [include_ann inc.name]) ++ [include_ann outer_name] } := by
  have h1 : Include.render_to inc writer context
      = Except.error { e with trace := e.trace ++ [include_ann inc.name] } :=
    render_to_error_step inc writer context e h
  have h2 : Template.render_to
      (Template.new [fun w c => Include.render_to inc w c]) writer context
      = Except.error { e with trace := e.trace ++ [include_ann inc.name] } := by
    simp [Template.render_to, Template.new, List.foldlM, h1, Bind.bind, Except.bind]
  exact ⟨h1, render_to_error_step _ writer context _ h2⟩

theorem include_render_error_trace_witness :
    Include.render_to inc_err "" ()
      = Except.error (Error.mk "boom" [include_ann "inner"])
    ∧ Include.render_to
        { name := "outer",
          partial_tpl := Template.new [fun w c => Include.render_to inc_err w c] }
        "" ()
      = Except.error (Error.mk "boom" [include_ann "inner", include_ann "outer"]) :=
  include_render_error_trace inc_err "" () (Error.mk "boom" []) "outer" rfl

/-- Claim C7: for a name free of quote and whitespace characters, the
quoted directive form and the bare-identifier form compile to the very
same result under any configuration — in particular, when both succeed
the resulting Include nodes render identically on any writer and
context. -/
theorem include_arg_form_equivalence {Ctx : Type} (options : LiquidOptions Ctx) (N : String)
    (rest rest' : List Token)
    (hN : ∀ c ∈ N.data, c ≠ '\x27' ∧ c ≠ '\x22' ∧ ¬ c.isWhitespace) :
    include_tag "include" (Token.StringLiteral N :: rest) options
      = include_tag "include" (Token.Identifier N :: rest') options
    ∧ ∀ (inc inc' : Include Ctx) (writer : String) (context : Ctx),
        include_tag "include" (Token.StringLiteral N :: rest) options = Except.ok inc →
        include_tag "include" (Token.Identifier N :: rest') options = Except.ok inc' →
        Include.render_to inc writer context = Include.render_to inc' writer context := by
  have heq : include_tag "include" (Token.StringLiteral N :: rest) options
      = include_tag "include" (Token.Identifier N :: rest') options := rfl
  refine ⟨heq, fun inc inc' writer context h1 h2 => ?_⟩
  rw [heq, h2] at h1
  injection h1 with hh
  rw [hh]

theorem include_arg_form_equivalence_witness :
    include_tag "include" [Token.StringLiteral "p", Token.Other "x"] opts_ex
      = include_tag "include" [Token.Identifier "p"] opts_ex
    ∧ ∀ (inc inc' : Include Unit) (writer : String) (context : Unit),
        include_tag "include" [Token.StringLiteral "p", Token.Other "x"] opts_ex
          = Except.ok inc →
        include_tag "include" [Token.Identifier "p"] opts_ex = Except.ok inc' →
        Include.render_to inc writer context = Include.render_to inc' writer context :=
  include_arg_form_equivalence opts_ex "p" [Token.Other "x"] [] (by decide)

/-- Claim C8: there is no caching of compiled partials.  Compiling two
include directives for the same name against a stateful Include Source
performs two lookups — the final source state records both calls — and
each occurrence's node owns a template compiled independently from the
content its own lookup returned (the content of call 0 for the first
occurrence, of call 1 for the second), even when that content differs
between the calls. -/
theorem include_no_caching {Ctx : Type} (f : Nat → String → String)
    (tokenize : String → Result (List Token))
    (parse : List Token → Result (List (Renderable Ctx)))
    (n : String) (nodes1 nodes2 : List (Renderable Ctx))
    (h1 : tokenize (f 0 n) >>= parse = Except.ok nodes1)
    (h2 : tokenize (f 1 n) >>= parse = Except.ok nodes2) :
    compile_directivesS [[Token.StringLiteral n], [Token.StringLiteral n]]
        (fun s name => (Except.ok (f s name), s + 1)) tokenize parse 0
      = (Except.ok [{ name := n, partial_tpl := Template.new nodes1 },
                    { name := n, partial_tpl := Template.new nodes2 }], 2) := by
  cases ht1 : tokenize (f 0 n) with
  | error e => rw [ht1] at h1; simp [Bind.bind, Except.bind] at h1
  | ok toks1 =>
    rw [ht1] at h1
    simp only [Bind.bind, Except.bind] at h1
    cases ht2 : tokenize (f 1 n) with
    | error e => rw [ht2] at h2; simp [Bind.bind, Except.bind] at h2
    | ok toks2 =>
      rw [ht2] at h2
      simp only [Bind.bind, Except.bind] at h2
      simp [compile_directivesS, include_tagS, parse_partialS, ht1, ht2, h1, h2]

theorem include_no_caching_witness :
    compile_directivesS [[Token.StringLiteral "p"], [Token.StringLiteral "p"]]
        (fun s name => (Except.ok (f8 s name), s + 1)) tokenize_ex parse_ex 0
      = (Except.ok [{ name := "p", partial_tpl := Template.new [] },
                    { name := "p", partial_tpl := Template.new [] }], 2) :=
  include_no_caching f8 tokenize_ex parse_ex "p" [] [] rfl rfl

/-- Claim C9: the resolution pipeline is unconditionally recursive with
no depth or visited-name guard.  First conjunct: whenever a source's
direct include dependencies admit a decreasing measure — its include
graph is acyclic — compilation of every name terminates with a result
(fuel one beyond the measure suffices; each nested include is resolved
depth-first inside the recursive call).  Second conjunct: under a source
where every partial includes itself, no fuel makes compilation of "a"
return: it never produces any error — there is no guard to produce one —
and never terminates normally. -/
theorem include_recursion_unguarded (src : String → Result String) (m : String → Nat)
    (hm : ∀ a b, dependsOn src a b → m b < m a) :
    (∀ name, parse_partialF src (m name + 1) name ≠ none)
    ∧ (∀ fuel, parse_partialF self_source fuel "a" = none) :=
  ⟨fun name => parse_partialF_acyclic_total src m hm (m name + 1) name (Nat.lt_succ_self _),
   self_source_loops⟩

theorem include_recursion_unguarded_witness :
    parse_partialF src0 (m0 "a" + 1) "a" ≠ none
    ∧ parse_partialF self_source 3 "a" = none :=
  ⟨(include_recursion_unguarded src0 m0 src0_measure).1 "a",
   (include_recursion_unguarded src0 m0 src0_measure).2 3⟩

/-- Claim C10: when the first argument token is a string literal or an
identifier, include_tag never looks at the remaining argument tokens:
compiling with any tail of extra tokens gives exactly the same result as
compiling with the first token alone, so extra tokens are silently
accepted and the resulting node depends only on the first token and the
configuration. -/
theorem include_tag_ignores_extra_args {Ctx : Type} (options : LiquidOptions Ctx)
    (tok : Token) (rest : List Token)
    (h : (∃ s, tok = Token.StringLiteral s) ∨ (∃ s, tok = Token.Identifier s)) :
    include_tag "include" (tok :: rest) options = include_tag "include" [tok] options := by
  rcases h with ⟨s, rfl⟩ | ⟨s, rfl⟩ <;> rfl

theorem include_tag_ignores_extra_args_witness :
    include_tag "include" [Token.Identifier "p", Token.Other "x"] opts_ex
      = include_tag "include" [Token.Identifier "p"] opts_ex :=
  include_tag_ignores_extra_args opts_ex (Token.Identifier "p") [Token.Other "x"]
    (Or.inr ⟨"p", rfl⟩)

end LiquidRust
